import Mathlib

/-!
Verification of the change-notification layer of Spoolman
(`spoolman/api/v1/router.py` and, as specified, the subscriber registry of
`spoolman/ws.py`).  Topics are hierarchical keys (lists of path segments),
sessions are identified abstractly by natural numbers.
-/

/-- A topic key: an ordered sequence of path segments. -/
abbrev Topic := List String

/-- A connection session, identified abstractly. -/
abbrev Session := Nat

/-- Boolean test that the first topic is a prefix-match ancestor of the
second (including equality and the root topic). -/
def ancestorOf : Topic → Topic → Bool
  | [], _ => true
  | _ :: _, [] => false
  | a :: as, b :: bs => a = b && ancestorOf as bs

theorem ancestorOf_iff (t1 t2 : Topic) : ancestorOf t1 t2 = true ↔ t1 <+: t2 := by
  induction t1 generalizing t2 with
  | nil => simp [ancestorOf]
  | cons a as ih =>
    cases t2 with
    | nil => simp [ancestorOf]
    | cons b bs =>
      simp [ancestorOf, List.cons_prefix_cons, Bool.and_eq_true,
        decide_eq_true_iff, ih]

/-- Modelled from the spec: the Subscriber Registry lives in the module
`spoolman/ws.py` (used by the router as `spoolman.ws.websocket_manager`),
whose code is not among the provided source files.  Following the spec, the
registry is the collection of (TopicKey, ConnectionSession) subscriptions. -/
abbrev Registry := List (Topic × Session)

/-- Modelled from the spec: the registry with no subscriptions. -/
def Registry.empty : Registry := []

/-- Modelled from the spec: `subscribe(topic, session)` is idempotent and
adds the session to the bucket for the topic. -/
def Registry.subscribe (r : Registry) (t : Topic) (s : Session) : Registry :=
  if (t, s) ∈ r then r else (t, s) :: r

/-- Modelled from the spec: `unsubscribe(topic, session)` removes the
association and is a no-op when it is absent. -/
def Registry.unsubscribe (r : Registry) (t : Topic) (s : Session) : Registry :=
  r.filter (fun p => decide (p ≠ (t, s)))

/-- Modelled from the spec: `matches(event_topic)` returns the sessions
subscribed at the event topic itself or at any strict prefix of it
(ancestor topics), deduplicated per session. -/
def Registry.matches (r : Registry) (eventTopic : Topic) : List Session :=
  ((r.filter (fun p => ancestorOf p.1 eventTopic)).map Prod.snd).dedup

theorem mem_matches {r : Registry} {t2 : Topic} {s : Session} :
    s ∈ r.matches t2 ↔ ∃ t1, (t1, s) ∈ r ∧ t1 <+: t2 := by
  simp only [Registry.matches, List.mem_dedup, List.mem_map, List.mem_filter]
  constructor
  · rintro ⟨⟨t1, s1⟩, ⟨hmem, hanc⟩, hs⟩
    cases hs
    exact ⟨t1, hmem, (ancestorOf_iff _ _).1 hanc⟩
  · rintro ⟨t1, hmem, hpre⟩
    exact ⟨(t1, s), ⟨hmem, (ancestorOf_iff _ _).2 hpre⟩, rfl⟩

/-- C1: a session subscribed at topic T1 is in `matches(T2)` exactly when T1
is a prefix of T2 (in general: a session is matched exactly when some topic
it is subscribed at is a prefix of the event topic, the root topic and
equality included), and the result never lists a session twice even when it
matches via several ancestor levels. -/
theorem matches_prefix_characterization :
    ∀ (r : Registry) (t2 : Topic) (s : Session),
      (s ∈ r.matches t2 ↔ ∃ t1, (t1, s) ∈ r ∧ t1 <+: t2)
      ∧ (∀ t1, (Registry.empty.subscribe t1 s).matches t2 =
          if t1 <+: t2 then [s] else [])
      ∧ (r.matches t2).Nodup := by
  intro r t2 s
  refine ⟨mem_matches, ?_, List.nodup_dedup _⟩
  intro t1
  simp only [Registry.subscribe, Registry.empty, List.not_mem_nil, if_false]
  by_cases h : t1 <+: t2
  · simp [Registry.matches, (ancestorOf_iff t1 t2).2 h, h]
  · have : ancestorOf t1 t2 = false := by
      cases hb : ancestorOf t1 t2 with
      | true => exact absurd ((ancestorOf_iff t1 t2).1 hb) h
      | false => rfl
    simp [Registry.matches, this, h]

/-- C6 counterexample: the round-trip law fails on a registry that already
holds the association.  With the session already subscribed at the topic,
`subscribe` (idempotent) is a no-op, and the following `unsubscribe` removes
the pre-existing association, so the match results change. -/
theorem subscribe_unsubscribe_roundtrip_cex :
    (((Registry.empty.subscribe ["spool"] 1).subscribe ["spool"] 1).unsubscribe
        ["spool"] 1).matches ["spool"]
      ≠ (Registry.empty.subscribe ["spool"] 1).matches ["spool"] := by
  decide

/-- C6 (amended): when the association (t, s) is not already present,
`subscribe(t, s)` immediately followed by `unsubscribe(t, s)` leaves the
match results unchanged for every event topic; `subscribe` is idempotent and
`unsubscribe` of an absent association is a no-op. -/
theorem subscribe_unsubscribe_roundtrip :
    ∀ (r : Registry) (t : Topic) (s : Session), (t, s) ∉ r →
      (∀ t', ((r.subscribe t s).unsubscribe t s).matches t' = r.matches t')
      ∧ ((r.subscribe t s).subscribe t s = r.subscribe t s)
      ∧ (r.unsubscribe t s = r) := by
  intro r t s h
  have hnoop : r.unsubscribe t s = r := by
    simp only [Registry.unsubscribe]
    apply List.filter_eq_self.2
    intro p hp
    simp only [decide_eq_true_iff]
    intro heq
    exact h (heq ▸ hp)
  have hsub : r.subscribe t s = (t, s) :: r := by
    simp [Registry.subscribe, h]
  have hround : (r.subscribe t s).unsubscribe t s = r := by
    rw [hsub]
    simp only [Registry.unsubscribe, List.filter_cons]
    simp only [ne_eq, not_true_eq_false, decide_False]
    exact hnoop
  refine ⟨fun t' => by rw [hround], ?_, hnoop⟩
  rw [hsub]
  simp [Registry.subscribe]

/-- C6 witness. -/
theorem subscribe_unsubscribe_roundtrip_witness :
    ((["spool"], 2) ∉ Registry.empty)
    ∧ ((Registry.empty.subscribe ["spool"] 2).unsubscribe ["spool"] 2).matches []
        = Registry.empty.matches [] :=
  ⟨by decide, (subscribe_unsubscribe_roundtrip Registry.empty ["spool"] 2 (by decide)).1 []⟩

/-- Modelled from the spec: the lifecycle states of a ConnectionSession
(the session class lives in `spoolman/ws.py`, not among the provided
sources). -/
inductive SessState
  | connecting
  | opened
  | closing
  | closed
deriving DecidableEq

/-- Modelled from the spec: the process-wide system state, pairing the
subscriber registry with the lifecycle state of every session. -/
structure WsSystem where
  reg : Registry
  st : Session → SessState

/-- Modelled from the spec: on creation a session transitions to Open and
registers itself with the registry at its topic. -/
def WsSystem.connect (sys : WsSystem) (t : Topic) (s : Session) : WsSystem :=
  { reg := sys.reg.subscribe t s
    st := fun x => if x = s then SessState.opened else sys.st x }

/-- Modelled from the spec: teardown removes the session from every topic
bucket it occupies and transitions it to Closed. -/
def WsSystem.teardown (sys : WsSystem) (s : Session) : WsSystem :=
  { reg := sys.reg.filter (fun p => decide (p.2 ≠ s))
    st := fun x => if x = s then SessState.closed else sys.st x }

/-- The registry invariant from the spec: every session present in the
registry (i.e. in some match result) is in state Open. -/
def WsSystem.Inv (sys : WsSystem) : Prop :=
  ∀ t s, s ∈ sys.reg.matches t → sys.st s = SessState.opened

/-- C7: the only-Open-sessions invariant is preserved by connect and by
teardown, and a session that has been torn down (transitioned to Closed,
being removed from every topic bucket) appears in zero subsequent
`matches` results, for every event topic. -/
theorem registry_only_open_sessions :
    ∀ sys : WsSystem, sys.Inv →
      (∀ t s, (sys.connect t s).Inv)
      ∧ (∀ s, (sys.teardown s).Inv)
      ∧ (∀ s, (sys.teardown s).st s = SessState.closed
          ∧ ∀ t, s ∉ (sys.teardown s).reg.matches t) := by
  intro sys hinv
  refine ⟨?_, ?_, ?_⟩
  · intro t s t' s' hmem
    simp only [WsSystem.connect] at hmem ⊢
    by_cases hss : s' = s
    · simp [hss]
    · simp only [hss, if_false]
      rcases mem_matches.1 hmem with ⟨t1, hmem1, hpre⟩
      apply hinv t'
      apply mem_matches.2
      refine ⟨t1, ?_, hpre⟩
      simp only [Registry.subscribe] at hmem1
      by_cases hin : (t, s) ∈ sys.reg
      · simpa [hin] using hmem1
      · simp only [hin, if_false, List.mem_cons] at hmem1
        rcases hmem1 with heq | hmem1
        · exact absurd (congrArg Prod.snd heq) hss
        · exact hmem1
  · intro s t' s' hmem
    simp only [WsSystem.teardown] at hmem ⊢
    rcases mem_matches.1 hmem with ⟨t1, hmem1, hpre⟩
    rcases List.mem_filter.1 hmem1 with ⟨hmemr, hne⟩
    simp only [decide_eq_true_iff] at hne
    simp only [hne, if_false]
    exact hinv t' s' (mem_matches.2 ⟨t1, hmemr, hpre⟩)
  · intro s
    refine ⟨by simp [WsSystem.teardown], ?_⟩
    intro t hmem
    simp only [WsSystem.teardown] at hmem
    rcases mem_matches.1 hmem with ⟨t1, hmem1, _⟩
    rcases List.mem_filter.1 hmem1 with ⟨_, hne⟩
    simp at hne

/-- C7 witness. -/
theorem registry_only_open_sessions_witness :
    ((WsSystem.mk Registry.empty fun _ => SessState.opened).teardown 5).st 5
        = SessState.closed
    ∧ (5 : Session) ∉
        ((WsSystem.mk Registry.empty fun _ => SessState.opened).teardown 5).reg.matches [] :=
  ⟨((registry_only_open_sessions _ (by
      intro t s h
      simp [Registry.matches, Registry.empty] at h)).2.2 5).1,
   ((registry_only_open_sessions _ (by
      intro t s h
      simp [Registry.matches, Registry.empty] at h)).2.2 5).2 []⟩

/-- The exception that ends the infinite loop of the `notify` handler:
either the `WebSocketDisconnect` raised by a client disconnect, or any
other exception raised while sleeping, receiving or sending. -/
inductive WsExc
  | wsDisconnect
  | otherExc
deriving DecidableEq

/-- An observable action of the `notify` websocket handler: transport
accept, registration and deregistration calls on the websocket manager,
the sleep tick (in milliseconds), an inbound text frame, and an outbound
JSON object (modelled structurally as key/value pairs). -/
inductive WsAction
  | accept
  | connect (t : Topic)
  | sleepMs (ms : Nat)
  | receiveText (msg : String)
  | sendJson (obj : List (String × String))
  | disconnect (t : Topic)
deriving DecidableEq

/-- The JSON object sent by the root websocket handler. -/
def healthyMsg : List (String × String) := [("status", "healthy")]

/-- One iteration of the loop body of `notify` (router.py lines 158-161):
sleep 0.5 s (500 ms), receive a text frame, and reply with the healthy JSON
object only when the received text is truthy, i.e. non-empty. -/
def notifyIter (msg : String) : List WsAction :=
  [WsAction.sleepMs 500, WsAction.receiveText msg]
    ++ (if msg = "" then [] else [WsAction.sendJson healthyMsg])

/-- Shallow embedding of the `notify` handler (router.py lines 148-163) as
the trace of actions of one run.  A run is determined by whether the
transport accept succeeds, by the finite list of text frames the loop
receives before it is ended by an exception, and by which exception ends
it.  On successful accept the handler registers the session at the root
topic `[]` and enters the loop; only `WebSocketDisconnect` is caught, in
which case the session is deregistered at the root topic. -/
def notifyRun (acceptOk : Bool) (frames : List String) (exc : WsExc) :
    List WsAction :=
  if acceptOk then
    WsAction.accept :: WsAction.connect [] :: (frames.flatMap notifyIter)
      ++ (if exc = WsExc.wsDisconnect then [WsAction.disconnect []] else [])
  else []

/-- Whether an exception propagates out of the `notify` handler for a run:
a failed accept raises, and any loop exception other than
`WebSocketDisconnect` is uncaught. -/
def notifyRaises (acceptOk : Bool) (exc : WsExc) : Bool :=
  if acceptOk then
    match exc with
    | WsExc.wsDisconnect => false
    | WsExc.otherExc => true
  else true

/-- The topics of the `connect` calls in a trace, in order. -/
def connectTopics : List WsAction → List Topic
  | [] => []
  | WsAction.connect t :: rest => t :: connectTopics rest
  | _ :: rest => connectTopics rest

/-- The topics of the `disconnect` calls in a trace, in order. -/
def disconnectTopics : List WsAction → List Topic
  | [] => []
  | WsAction.disconnect t :: rest => t :: disconnectTopics rest
  | _ :: rest => disconnectTopics rest

/-- The effect of a trace of manager calls on the registry, for the
session performing them. -/
def applyActions (s : Session) (r : Registry) : List WsAction → Registry
  | [] => r
  | WsAction.connect t :: rest => applyActions s (r.subscribe t s) rest
  | WsAction.disconnect t :: rest => applyActions s (r.unsubscribe t s) rest
  | _ :: rest => applyActions s r rest

theorem connectTopics_append (a b : List WsAction) :
    connectTopics (a ++ b) = connectTopics a ++ connectTopics b := by
  induction a with
  | nil => rfl
  | cons x rest ih => cases x <;> simp [connectTopics, ih]

theorem disconnectTopics_append (a b : List WsAction) :
    disconnectTopics (a ++ b) = disconnectTopics a ++ disconnectTopics b := by
  induction a with
  | nil => rfl
  | cons x rest ih => cases x <;> simp [disconnectTopics, ih]

theorem connectTopics_iter (m : String) : connectTopics (notifyIter m) = [] := by
  by_cases h : m = "" <;> simp [notifyIter, h, connectTopics]

theorem disconnectTopics_iter (m : String) :
    disconnectTopics (notifyIter m) = [] := by
  by_cases h : m = "" <;> simp [notifyIter, h, disconnectTopics]

theorem connectTopics_flat (frames : List String) :
    connectTopics (frames.flatMap notifyIter) = [] := by
  induction frames with
  | nil => rfl
  | cons m rest ih =>
    rw [List.flatMap_cons, connectTopics_append, connectTopics_iter, ih]
    rfl

theorem disconnectTopics_flat (frames : List String) :
    disconnectTopics (frames.flatMap notifyIter) = [] := by
  induction frames with
  | nil => rfl
  | cons m rest ih =>
    rw [List.flatMap_cons, disconnectTopics_append, disconnectTopics_iter, ih]
    rfl

theorem connectTopics_notifyRun_true (frames : List String) (exc : WsExc) :
    connectTopics (notifyRun true frames exc) = [[]] := by
  simp only [notifyRun, if_true, connectTopics]
  by_cases h : exc = WsExc.wsDisconnect <;>
    simp [h, connectTopics_append, connectTopics_flat, connectTopics]

/-- C2: a run of `notify` whose accept fails performs no manager calls at
all (in particular the session is never registered), while a run whose
accept succeeds begins with the accept followed immediately by the
registration, which is at the root (empty) topic and is the only
registration of the run. -/
theorem notify_registers_root_after_accept :
    ∀ (frames : List String) (exc : WsExc),
      notifyRun false frames exc = []
      ∧ (notifyRun true frames exc).take 2 = [WsAction.accept, WsAction.connect []]
      ∧ connectTopics (notifyRun true frames exc) = [[]] := by
  intro frames exc
  exact ⟨rfl, by simp [notifyRun], connectTopics_notifyRun_true frames exc⟩

/-- The JSON objects sent in a trace, in order. -/
def sendJsonObjs : List WsAction → List (List (String × String))
  | [] => []
  | WsAction.sendJson o :: rest => o :: sendJsonObjs rest
  | _ :: rest => sendJsonObjs rest

/-- The sleep durations (in milliseconds) of a trace, in order. -/
def sleepDurations : List WsAction → List Nat
  | [] => []
  | WsAction.sleepMs ms :: rest => ms :: sleepDurations rest
  | _ :: rest => sleepDurations rest

theorem sendJsonObjs_append (a b : List WsAction) :
    sendJsonObjs (a ++ b) = sendJsonObjs a ++ sendJsonObjs b := by
  induction a with
  | nil => rfl
  | cons x rest ih => cases x <;> simp [sendJsonObjs, ih]

theorem sleepDurations_append (a b : List WsAction) :
    sleepDurations (a ++ b) = sleepDurations a ++ sleepDurations b := by
  induction a with
  | nil => rfl
  | cons x rest ih => cases x <;> simp [sleepDurations, ih]

theorem sendJsonObjs_flat (frames : List String) :
    sendJsonObjs (frames.flatMap notifyIter)
      = List.replicate (frames.filter (fun m => decide (m ≠ ""))).length healthyMsg := by
  induction frames with
  | nil => rfl
  | cons m rest ih =>
    rw [List.flatMap_cons, sendJsonObjs_append, ih]
    by_cases h : m = "" <;>
      simp [notifyIter, h, sendJsonObjs, List.filter_cons, List.replicate_succ]

theorem sleepDurations_flat (frames : List String) :
    sleepDurations (frames.flatMap notifyIter)
      = List.replicate frames.length 500 := by
  induction frames with
  | nil => rfl
  | cons m rest ih =>
    rw [List.flatMap_cons, sleepDurations_append, ih]
    by_cases h : m = "" <;>
      simp [notifyIter, h, sleepDurations, List.replicate_succ]

/-- C3 counterexample: an inbound empty text frame gets no reply.  The loop
body replies only when the received text is truthy in the Python sense, so
for the run that receives the single frame `""` the trace contains the
inbound frame but no outbound JSON at all, refuting the claim that the
server replies to every inbound client text frame. -/
theorem notify_reply_cex :
    WsAction.receiveText "" ∈ notifyRun true [""] WsExc.wsDisconnect
    ∧ WsAction.sendJson healthyMsg ∉ notifyRun true [""] WsExc.wsDisconnect := by
  decide

/-- C3 (amended): on the root websocket channel the server replies with the
JSON object with field status = healthy to every NON-EMPTY inbound client
text frame — exactly one reply per non-empty frame, and no other JSON is
ever sent — and the liveness loop sleeps a fixed 0.5-second (500 ms) tick
once per iteration. -/
theorem notify_healthy_reply_and_tick :
    ∀ (frames : List String) (exc : WsExc),
      sendJsonObjs (notifyRun true frames exc)
        = List.replicate (frames.filter (fun m => decide (m ≠ ""))).length healthyMsg
      ∧ sleepDurations (notifyRun true frames exc)
        = List.replicate frames.length 500 := by
  intro frames exc
  constructor
  · simp only [notifyRun, if_true, sendJsonObjs]
    by_cases h : exc = WsExc.wsDisconnect <;>
      simp [h, sendJsonObjs_append, sendJsonObjs_flat, sendJsonObjs]
  · simp only [notifyRun, if_true, sleepDurations]
    by_cases h : exc = WsExc.wsDisconnect <;>
      simp [h, sleepDurations_append, sleepDurations_flat, sleepDurations]

/-- C4: when the run of the root websocket handler ends with a
client-initiated disconnect (`WebSocketDisconnect`), the handler
deregisters the session at exactly the root topic it registered it at:
the single connect call and the single disconnect call carry the same
topic `[]`, and the disconnect is the last action of the run. -/
theorem notify_disconnect_same_topic :
    ∀ frames : List String,
      connectTopics (notifyRun true frames WsExc.wsDisconnect) = [[]]
      ∧ disconnectTopics (notifyRun true frames WsExc.wsDisconnect) = [[]]
      ∧ (notifyRun true frames WsExc.wsDisconnect).getLast?
          = some (WsAction.disconnect []) := by
  intro frames
  refine ⟨?_, ?_, ?_⟩
  · simp [notifyRun, connectTopics, connectTopics_append, connectTopics_flat]
  · simp [notifyRun, disconnectTopics, disconnectTopics_append,
      disconnectTopics_flat]
  · have hsplit : notifyRun true frames WsExc.wsDisconnect
        = (WsAction.accept :: WsAction.connect [] :: frames.flatMap notifyIter)
            ++ [WsAction.disconnect []] := by
      simp [notifyRun]
    rw [hsplit]
    exact List.getLast?_concat _

theorem applyActions_append (s : Session) (r : Registry) (a b : List WsAction) :
    applyActions s r (a ++ b) = applyActions s (applyActions s r a) b := by
  induction a generalizing r with
  | nil => rfl
  | cons x rest ih => cases x <;> simp [applyActions, ih]

theorem applyActions_iter (s : Session) (r : Registry) (m : String) :
    applyActions s r (notifyIter m) = r := by
  by_cases h : m = "" <;> simp [notifyIter, h, applyActions]

theorem applyActions_flat (s : Session) (r : Registry) (frames : List String) :
    applyActions s r (frames.flatMap notifyIter) = r := by
  induction frames with
  | nil => rfl
  | cons m rest ih =>
    rw [List.flatMap_cons, applyActions_append, applyActions_iter, ih]

theorem subscribe_unsubscribe_empty (s : Session) :
    (Registry.empty.subscribe [] s).unsubscribe [] s = Registry.empty := by
  simp [Registry.empty, Registry.subscribe, Registry.unsubscribe, List.filter]

/-- C10: a successfully accepted run of the `notify` handler deregisters
the session exactly when the loop is ended by `WebSocketDisconnect`; any
other exception propagates out of the handler with no deregistration, so
the registry entry created at registration is left in place. -/
theorem notify_deregisters_only_on_disconnect :
    ∀ (frames : List String) (exc : WsExc),
      disconnectTopics (notifyRun true frames exc)
        = (if exc = WsExc.wsDisconnect then [([] : Topic)] else [])
      ∧ (notifyRaises true exc = true ↔ exc = WsExc.otherExc)
      ∧ (∀ s, applyActions s Registry.empty (notifyRun true frames exc)
          = if exc = WsExc.wsDisconnect then Registry.empty
            else Registry.empty.subscribe [] s) := by
  intro frames exc
  refine ⟨?_, ?_, ?_⟩
  · simp only [notifyRun, if_true, disconnectTopics]
    by_cases h : exc = WsExc.wsDisconnect <;>
      simp [h, disconnectTopics_append, disconnectTopics_flat, disconnectTopics]
  · cases exc <;> simp [notifyRaises]
  · intro s
    simp only [notifyRun, if_true, applyActions]
    by_cases h : exc = WsExc.wsDisconnect <;>
      simp [h, applyActions_append, applyActions_flat, applyActions,
        subscribe_unsubscribe_empty]

/-- Split a list of characters at the first occurrence of a separator. -/
def splitFirst (c : Char) : List Char → Option (List Char × List Char)
  | [] => none
  | x :: xs =>
    if x = c then some ([], xs)
    else
      match splitFirst c xs with
      | some (a, b) => some (x :: a, b)
      | none => none

/-- Python `s.partition(sep)` for a one-character separator, keeping the
parts before and after the first occurrence; when the separator does not
occur, the first part is the whole string and the second is empty. -/
def strPartition (c : Char) (s : String) : String × String :=
  match splitFirst c s.toList with
  | some (a, b) => (String.mk a, String.mk b)
  | none => (s, "")

/-- Python `str.lower()` restricted to ASCII, which is all that header
schemes use. -/
def strToLower (s : String) : String :=
  String.mk (s.toList.map Char.toLower)

/-- FastAPI `get_authorization_scheme_param`: partition the header value on
the first space into scheme and parameter. -/
def get_authorization_scheme_param (authorizationHeaderValue : String) :
    String × String :=
  strPartition ' ' authorizationHeaderValue

/-- Result of the HTTP auth middleware on one request: either the request
is passed on to `call_next`, or an HTTPException with status 401 and the
given detail is raised. -/
inductive AuthOutcome
  | passedThrough
  | rejected (detail : String)
deriving DecidableEq

/-- Shallow embedding of `decode_and_check_basic_auth_or_raise` (router.py
lines 44-66).  The base64-decode-then-ASCII-decode step
(`b64decode(...).decode("ascii")`) is an external library call, modelled as
a parameter returning `none` exactly when it raises.  `some detail` models
`raise HTTPException(401, detail)`; `none` models the normal return.
`secrets.compare_digest` on equal-type strings is constant-time equality,
modelled as equality. -/
def decode_and_check_basic_auth_or_raise
    (b64decodeAscii : String → Option String)
    (basicAuthUsername basicAuthPassword : String)
    (encodedCredentials : String) : Option String :=
  match b64decodeAscii encodedCredentials with
  | none => some "invalid token"
  | some decodedCredentials =>
    let userPass := strPartition ':' decodedCredentials
    if ¬(userPass.1 = basicAuthUsername) ∨ ¬(userPass.2 = basicAuthPassword) then
      some "invalid username/password"
    else
      none

/-- Shallow embedding of the HTTP middleware `check_auth` (router.py lines
69-95).  The Authorization header lookup
(`headers.get('Authorization') or headers.get('authorization')`) is a
case-insensitive lookup modelled as one optional value.  When basic auth is
not activated the request is passed through with no check at all. -/
def check_auth (basic_auth_activated : Bool)
    (basicAuthUsername basicAuthPassword : String)
    (b64decodeAscii : String → Option String)
    (authHeader : Option String) : AuthOutcome :=
  if ¬basic_auth_activated then
    AuthOutcome.passedThrough
  else
    match authHeader with
    | none => AuthOutcome.rejected "no auth given"
    | some h =>
      let schemeToken := get_authorization_scheme_param h
      if strToLower schemeToken.1 = "basic" then
        match decode_and_check_basic_auth_or_raise b64decodeAscii
            basicAuthUsername basicAuthPassword schemeToken.2 with
        | some d => AuthOutcome.rejected d
        | none => AuthOutcome.passedThrough
      else
        AuthOutcome.rejected "invalid authentication method"

/-- C9: the auth middleware rejects with 401 in exactly the listed cases —
no header at all (detail "no auth given"), a scheme other than Basic
(detail "invalid authentication method"), Basic credentials that fail to
base64/ASCII decode (detail "invalid token"), decoded credentials whose
username or password does not match (detail "invalid username/password") —
passes matching Basic credentials through, and performs no check at all
when basic auth is not activated. -/
theorem check_auth_cases :
    ∀ (u p : String) (b64 : String → Option String) (hdr : Option String),
      (check_auth false u p b64 hdr = AuthOutcome.passedThrough)
      ∧ (check_auth true u p b64 none = AuthOutcome.rejected "no auth given")
      ∧ (∀ h, strToLower (get_authorization_scheme_param h).1 ≠ "basic" →
          check_auth true u p b64 (some h)
            = AuthOutcome.rejected "invalid authentication method")
      ∧ (∀ h, strToLower (get_authorization_scheme_param h).1 = "basic" →
          b64 (get_authorization_scheme_param h).2 = none →
          check_auth true u p b64 (some h) = AuthOutcome.rejected "invalid token")
      ∧ (∀ h d, strToLower (get_authorization_scheme_param h).1 = "basic" →
          b64 (get_authorization_scheme_param h).2 = some d →
          ¬((strPartition ':' d).1 = u ∧ (strPartition ':' d).2 = p) →
          check_auth true u p b64 (some h)
            = AuthOutcome.rejected "invalid username/password")
      ∧ (∀ h d, strToLower (get_authorization_scheme_param h).1 = "basic" →
          b64 (get_authorization_scheme_param h).2 = some d →
          (strPartition ':' d).1 = u → (strPartition ':' d).2 = p →
          check_auth true u p b64 (some h) = AuthOutcome.passedThrough) := by
  intro u p b64 hdr
  refine ⟨rfl, rfl, ?_, ?_, ?_, ?_⟩
  · intro h hne
    simp [check_auth, hne]
  · intro h hbasic hfail
    simp [check_auth, hbasic, decode_and_check_basic_auth_or_raise, hfail]
  · intro h d hbasic hok hbad
    rw [not_and_or] at hbad
    simp [check_auth, hbasic, decode_and_check_basic_auth_or_raise, hok, hbad]
  · intro h d hbasic hok hu hp
    simp [check_auth, hbasic, decode_and_check_basic_auth_or_raise, hok, hu, hp]

/-- C9 witness. -/
theorem check_auth_cases_witness :
    check_auth true "admin" "pw" (fun _ => some "admin:pw") (some "Basic x")
        = AuthOutcome.passedThrough
    ∧ check_auth true "admin" "pw" (fun _ => none) (some "Basic x")
        = AuthOutcome.rejected "invalid token"
    ∧ check_auth true "admin" "pw" (fun _ => some "admin:bad") (some "Basic x")
        = AuthOutcome.rejected "invalid username/password"
    ∧ check_auth true "admin" "pw" (fun _ => some "admin:pw") (some "Bearer x")
        = AuthOutcome.rejected "invalid authentication method" :=
  ⟨(check_auth_cases "admin" "pw" _ none).2.2.2.2.2 "Basic x" "admin:pw"
      (by decide) rfl (by decide) (by decide),
   (check_auth_cases "admin" "pw" _ none).2.2.2.1 "Basic x" (by decide) rfl,
   (check_auth_cases "admin" "pw" _ none).2.2.2.2.1 "Basic x" "admin:bad"
      (by decide) rfl (by decide),
   (check_auth_cases "admin" "pw" _ none).2.2.1 "Bearer x" (by decide)⟩

/-- An inbound connection attempt at the application boundary: either an
HTTP-scope request, or a websocket-scope attempt at the root endpoint
(with its accept outcome, received frames and terminating exception). -/
inductive ConnAttempt
  | httpRequest (authHeader : Option String)
  | wsAttempt (authHeader : Option String) (acceptOk : Bool)
      (frames : List String) (exc : WsExc)

/-- Shallow embedding of the ASGI pipeline assembled in router.py:
`check_auth` is registered via the `app.middleware("http")` decorator, and
Starlette dispatches middleware registered for the "http" scope only on
HTTP requests — websocket scopes are passed to the websocket route
(`notify`) without running it.  The result is the list of websocket-manager
actions performed plus, for a rejected HTTP request, the 401 detail.  The
HTTP endpoints of this router never touch the websocket manager, so a
passed-through HTTP request contributes no manager actions. -/
def appHandle (basic_auth_activated : Bool)
    (basicAuthUsername basicAuthPassword : String)
    (b64decodeAscii : String → Option String) :
    ConnAttempt → List WsAction × Option String
  | ConnAttempt.httpRequest hdr =>
    match check_auth basic_auth_activated basicAuthUsername basicAuthPassword
        b64decodeAscii hdr with
    | AuthOutcome.rejected d => ([], some d)
    | AuthOutcome.passedThrough => ([], none)
  | ConnAttempt.wsAttempt _hdr acceptOk frames exc =>
    (notifyRun acceptOk frames exc, none)

/-- C5 counterexample: with basic auth activated, a websocket connection
attempt carrying no credentials at all is still accepted and registered in
the subscriber registry — the middleware is registered for the "http"
scope and does not run on websocket scopes, so the unauthenticated
connection reaches the notification core. -/
theorem unauth_ws_registered_cex :
    WsAction.connect [] ∈
      (appHandle true "admin" "pw" (fun _ => none)
        (ConnAttempt.wsAttempt none true [] WsExc.wsDisconnect)).1 := by
  decide

/-- C5 (amended): with basic auth activated, every unauthenticated HTTP
request is rejected with a 401 before any endpoint runs and performs no
websocket-manager action, but websocket connection attempts are not
checked by the http middleware: they are registered at the root topic
whenever the transport accept succeeds, regardless of their credentials. -/
theorem auth_gates_http_not_ws :
    ∀ (u p : String) (b64 : String → Option String) (hdr : Option String),
      (∀ d, check_auth true u p b64 hdr = AuthOutcome.rejected d →
        appHandle true u p b64 (ConnAttempt.httpRequest hdr) = ([], some d))
      ∧ (∀ acceptOk frames exc,
          connectTopics
              (appHandle true u p b64
                (ConnAttempt.wsAttempt hdr acceptOk frames exc)).1
            = if acceptOk then [([] : Topic)] else []) := by
  intro u p b64 hdr
  constructor
  · intro d hrej
    simp [appHandle, hrej]
  · intro acceptOk frames exc
    cases acceptOk with
    | true =>
      simpa [appHandle] using connectTopics_notifyRun_true frames exc
    | false =>
      simp [appHandle, notifyRun, connectTopics]

/-- C5 witness. -/
theorem auth_gates_http_not_ws_witness :
    appHandle true "admin" "pw" (fun _ => none) (ConnAttempt.httpRequest none)
        = ([], some "no auth given")
    ∧ connectTopics
          (appHandle true "admin" "pw" (fun _ => none)
            (ConnAttempt.wsAttempt none true [] WsExc.wsDisconnect)).1
        = [([] : Topic)] :=
  ⟨(auth_gates_http_not_ws "admin" "pw" (fun _ => none) none).1
      "no auth given" rfl,
   by
    have h := (auth_gates_http_not_ws "admin" "pw" (fun _ => none) none).2
      true [] WsExc.wsDisconnect
    simpa using h⟩

/-- A queued payload, identified abstractly. -/
abbrev Payload := Nat

/-- Modelled from the spec: the bounded FIFO outbound queue of a
ConnectionSession (implemented in `spoolman/ws.py`, not among the provided
source files), with its capacity and current contents. -/
structure BQueue where
  cap : Nat
  items : List Payload

/-- Modelled from the spec: `enqueue(payload)` places the payload at the
back of the queue and returns true when there is room, and otherwise drops
the payload, leaves the queue unchanged and returns false without
blocking. -/
def BQueue.enqueue (q : BQueue) (p : Payload) : BQueue × Bool :=
  if q.items.length < q.cap then
    ({ q with items := q.items ++ [p] }, true)
  else
    (q, false)

/-- Deliver a list of published events to one session by enqueueing each
in turn (drops included). -/
def publishAll (ps : List Payload) (q : BQueue) : BQueue :=
  ps.foldl (fun acc p => (acc.enqueue p).1) q

theorem publishAll_length_le (ps : List Payload) (q : BQueue)
    (h : q.items.length ≤ q.cap) :
    (publishAll ps q).items.length ≤ q.cap
    ∧ (publishAll ps q).cap = q.cap := by
  induction ps generalizing q with
  | nil => exact ⟨h, rfl⟩
  | cons p rest ih =>
    simp only [publishAll, List.foldl_cons] at *
    by_cases hlt : q.items.length < q.cap
    · have := ih { q with items := q.items ++ [p] }
        (by simpa using Nat.succ_le_of_lt hlt)
      simpa [BQueue.enqueue, hlt] using this
    · have := ih q h
      simpa [BQueue.enqueue, hlt] using this

theorem publishAll_all_delivered (ps : List Payload) (q : BQueue)
    (h : q.items.length + ps.length ≤ q.cap) :
    (publishAll ps q).items = q.items ++ ps := by
  induction ps generalizing q with
  | nil => simp [publishAll]
  | cons p rest ih =>
    have hlt : q.items.length < q.cap := by
      simp only [List.length_cons] at h
      omega
    simp only [publishAll, List.foldl_cons, BQueue.enqueue, hlt, if_true]
    have hrest := ih { q with items := q.items ++ [p] }
      (by
        simp only [List.length_append, List.length_cons, List.length_nil] at h ⊢
        omega)
    simpa [List.append_assoc] using hrest

/-- C8: `enqueue` on a full queue returns false, drops the payload and
leaves the queue unchanged (it never blocks the dispatcher); publishing any
list of events to a session whose queue has capacity K delivers at most K
of them; and a session whose queue capacity covers the whole list receives
every event, independently of what happens to any other session's queue. -/
theorem bounded_queue_drop_policy :
    (∀ (q : BQueue) (p : Payload), q.cap ≤ q.items.length →
      q.enqueue p = (q, false))
    ∧ (∀ (K : Nat) (ps : List Payload),
        (publishAll ps (BQueue.mk K [])).items.length ≤ K)
    ∧ (∀ (K : Nat) (ps : List Payload), ps.length ≤ K →
        (publishAll ps (BQueue.mk K [])).items = ps) := by
  refine ⟨?_, ?_, ?_⟩
  · intro q p hfull
    simp [BQueue.enqueue, Nat.not_lt_of_le hfull]
  · intro K ps
    exact (publishAll_length_le ps (BQueue.mk K []) (by simp)).1
  · intro K ps hK
    simpa using publishAll_all_delivered ps (BQueue.mk K []) (by simpa using hK)

/-- C8 witness: a full queue of capacity one refuses a new payload, three
events into a queue of capacity two deliver at most two, and a queue of
capacity three receives both of two published events. -/
theorem bounded_queue_drop_policy_witness :
    (BQueue.mk 1 [7]).enqueue 9 = (BQueue.mk 1 [7], false)
    ∧ (publishAll [1, 2, 3] (BQueue.mk 2 [])).items.length ≤ 2
    ∧ (publishAll [1, 2] (BQueue.mk 3 [])).items = [1, 2] :=
  ⟨bounded_queue_drop_policy.1 (BQueue.mk 1 [7]) 9 (by decide),
   bounded_queue_drop_policy.2.1 2 [1, 2, 3],
   bounded_queue_drop_policy.2.2 3 [1, 2] (by decide)⟩
